import Mathlib

/-!
# Verification of the ChromaMemory slot-extraction / merge / stage-machine core

Shallow embedding of `src/app/services/slot_extraction.py` and
`src/app/services/stage_machine.py`.  Python dictionaries with string keys are
modelled as ordered association lists (`Slots`), Python values by the inductive
`PyVal`, Python floats by `ℚ`, and the regular-expression patterns by a small
backtracking engine (`RE` / `mrun`) whose alternation and greedy-repetition
order reproduces CPython's leftmost, priority-ordered backtracking search.
Character-level predicates (`\w`, `\s`, case folding) use the ASCII semantics;
the pattern library of the source is pure ASCII, so this agrees with CPython on
every string the patterns can distinguish.

Python code that can raise on values outside the spec's data model (§3 of the
specification types every slot) is embedded in `Except String`; the error
string names the Python exception class that the source would raise there.
-/

set_option maxRecDepth 20000

/-- Python values, as used by the slot pipeline: `None`, strings, numbers
(`int`/`float` merged into `ℚ`; `bool` kept separate because Python treats it
as an `int` in `isinstance` checks), lists and string-keyed dicts. -/
inductive PyVal where
  | none : PyVal
  | str : String → PyVal
  | num : ℚ → PyVal
  | bool : Bool → PyVal
  | list : List PyVal → PyVal
  | dict : List (String × PyVal) → PyVal

/-- A Python dict with string keys, in insertion order (a "slot set"). -/
abbrev Slots := List (String × PyVal)

/-- Python truthiness: `None`, `""`, `0`, `False`, `[]`, `{}` are falsy. -/
def truthy : PyVal → Bool
  | .none => false
  | .str s => !(s.toList.isEmpty)
  | .num q => q != 0
  | .bool b => b
  | .list xs => !xs.isEmpty
  | .dict kvs => !kvs.isEmpty

/-- `d[k]` lookup (first binding; Python dicts have unique keys). -/
def dget : Slots → String → Option PyVal
  | [], _ => none
  | (k', v') :: t, k => if k' = k then some v' else dget t k

/-- Python `d.get(k)`: `None` when the key is absent. -/
def pyGet (d : Slots) (k : String) : PyVal :=
  (dget d k).getD PyVal.none

/-- Python `d[k] = v`: replace in place, else append (dict insertion order). -/
def dset : Slots → String → PyVal → Slots
  | [], k, v => [(k, v)]
  | (k', v') :: t, k, v => if k' = k then (k, v) :: t else (k', v') :: dset t k v

/-- Key membership (`k in d`). -/
def dhas (d : Slots) (k : String) : Bool :=
  (dget d k).isSome

-- ---------------------------------------------------------------------------
-- Character and string helpers (ASCII semantics of the CPython operations)
-- ---------------------------------------------------------------------------

/-- Python regex `\s` (ASCII subset). -/
def pySpace (c : Char) : Bool :=
  c = ' ' || c = '\t' || c = '\n' || c = '\r' || c = '\x0b' || c = '\x0c'

/-- Python regex `\w` (ASCII subset): letters, digits, underscore. -/
def wordChar (c : Char) : Bool :=
  c.isAlpha || c.isDigit || c = '_'

/-- `\w`-ness of an optional context character (`None` counts as non-word). -/
def optWord : Option Char → Bool
  | some c => wordChar c
  | none => false

/-- Python regex `\b` between an optional previous and next character. -/
def wordBoundary (prev next : Option Char) : Bool :=
  optWord prev != optWord next

/-- `str.lower()` (ASCII). -/
def pyLower (s : List Char) : List Char :=
  s.map Char.toLower

/-- `str.upper()` (ASCII). -/
def pyUpper (s : List Char) : List Char :=
  s.map Char.toUpper

/-- Leading-whitespace strip. -/
def lstrip (s : List Char) : List Char :=
  s.dropWhile pySpace

/-- Trailing-whitespace strip. -/
def rstrip : List Char → List Char
  | [] => []
  | c :: t =>
    match rstrip t with
    | [] => if pySpace c then [] else [c]
    | r => c :: r

/-- `str.strip()`. -/
def pyStrip (s : List Char) : List Char :=
  lstrip (rstrip s)

/-- String-level `str.strip()`. -/
def strStrip (s : String) : String :=
  (pyStrip s.toList).asString

/-- String-level `str.lower()`. -/
def strLower (s : String) : String :=
  (pyLower s.toList).asString

/-- `needle in hay` (Python substring test) on char lists. -/
def subIn : List Char → List Char → Bool
  | n, [] => n.isEmpty
  | n, c :: t => n.isPrefixOf (c :: t) || subIn n t

/-- String-level substring test (`a in b`). -/
def strIn (a b : String) : Bool :=
  subIn a.toList b.toList

/-- Helper for `squeeze`: the flag records whether the previous character was
part of a whitespace run already emitted as a single `' '`. -/
def squeezeAux : Bool → List Char → List Char
  | _, [] => []
  | prevSp, c :: t =>
    if pySpace c then
      if prevSp then squeezeAux true t else ' ' :: squeezeAux true t
    else c :: squeezeAux false t

/-- Collapse every whitespace run to a single space (`re.sub(r"\s+", " ", s)`). -/
def squeeze (s : List Char) : List Char :=
  squeezeAux false s

/-- `_norm_spaces` from `slot_extraction.py` (lines 11-12): collapse whitespace
runs to one space, then strip both ends. -/
def norm_spaces (s : List Char) : List Char :=
  lstrip (rstrip (squeeze s))

/-- `_norm_spaces` at string level. -/
def normSpacesStr (s : String) : String :=
  (norm_spaces s.toList).asString

-- ---------------------------------------------------------------------------
-- Stage machine (`src/app/services/stage_machine.py`)
-- ---------------------------------------------------------------------------

/-- `STAGES` (stage_machine.py line 5). -/
def STAGES : List String := ["collect", "enrich", "match", "schedule", "close"]

/-- `REQUIRED` (stage_machine.py lines 8-20): static per-stage requirements. -/
def REQUIRED : List (String × List String) :=
  [("collect", ["role_title"]),
   ("enrich", ["budget", "location", "seniority", "stack"]),
   ("match", ["candidates"]),
   ("schedule", ["candidate_id", "timeslot"]),
   ("close", [])]

/-- `NEXT` (stage_machine.py lines 23-29): successor of a satisfied stage. -/
def NEXT : List (String × String) :=
  [("collect", "enrich"), ("enrich", "match"), ("match", "schedule"),
   ("schedule", "close"), ("close", "close")]

/-- Lookup with default, `table.get(k, d)`. -/
def tblGet (tbl : List (String × String)) (k d : String) : String :=
  ((tbl.find? (fun p => p.1 = k)).map Prod.snd).getD d

/-- Lookup with default for the `REQUIRED` table. -/
def reqGet (k : String) : List String :=
  ((REQUIRED.find? (fun p => p.1 = k)).map Prod.snd).getD []

/-- `_filled_budget` (stage_machine.py lines 32-41). -/
def _filled_budget (v : PyVal) : Bool :=
  if !truthy v then false
  else
    match v with
    | .dict kvs =>
        -- `v.get("min") is not None` etc.
        (match dget kvs "min" with | some .none => false | some _ => true | none => false) ||
        (match dget kvs "max" with | some .none => false | some _ => true | none => false) ||
        truthy (pyGet kvs "raw")
    | .num _ => true
    | .bool _ => true -- Python `bool` is an `int`, so `isinstance(v,(int,float))` holds
    | .str s => !(pyStrip s.toList).isEmpty
    | _ => false

/-- `_filled_simple` (stage_machine.py lines 43-47). -/
def _filled_simple (v : PyVal) : Bool :=
  match v with
  | .none => false
  | .str s => !(pyStrip s.toList).isEmpty
  | .list xs => !xs.isEmpty
  | _ => true

/-- `_is_filled` (stage_machine.py lines 50-56). -/
def _is_filled (key : String) (slots : Slots) : Bool :=
  let v := pyGet slots key
  if key = "budget" then _filled_budget v
  else if key = "stack" then
    match v with
    | .list xs => !xs.isEmpty
    | _ => _filled_simple v
  else _filled_simple v

/-- Python `(x or "")` followed by a string-method call: falsy values coerce to
`""`; a truthy non-string raises `AttributeError` at `.strip()`. -/
def pyOrEmptyStr (v : PyVal) : Except String String :=
  if truthy v then
    match v with
    | .str s => .ok s
    | _ => .error "AttributeError"
  else .ok ""

/-- `_dynamic_required` (stage_machine.py lines 59-65). -/
def _dynamic_required (stage : String) (slots : Slots) :
    Except String (List String) :=
  if stage = "enrich" then
    match pyOrEmptyStr (pyGet slots "employment_type") with
    | .error e => .error e
    | .ok et0 =>
      let et := strLower (strStrip et0)
      if et = "contract" && !_is_filled "duration" slots then .ok ["duration"]
      else .ok []
  else .ok []

/-- Helper for `pyDedup`: `seen` holds the keys already emitted. -/
def pyDedupAux : List String → List String → List String
  | _, [] => []
  | seen, x :: t =>
    if x ∈ seen then pyDedupAux seen t else x :: pyDedupAux (x :: seen) t

/-- `list(dict.fromkeys(xs))`: deduplicate keeping first occurrences. -/
def pyDedup (l : List String) : List String :=
  pyDedupAux [] l

/-- `missing_for_stage` (stage_machine.py lines 68-73). -/
def missing_for_stage (stage : String) (slots : Slots) :
    Except String (List String) :=
  let stage := if stage ∈ STAGES then stage else "collect"
  match _dynamic_required stage slots with
  | .error e => .error e
  | .ok dyn =>
    let needed := pyDedup (reqGet stage ++ dyn)
    .ok (needed.filter (fun k => !_is_filled k slots))

/-- `next_stage` (stage_machine.py lines 76-80): return the current stage when
something is missing (list truthiness), else the fixed successor. -/
def next_stage (current : String) (slots : Slots) : Except String String :=
  let cur := if current ∈ STAGES then current else "collect"
  match missing_for_stage cur slots with
  | .error e => .error e
  | .ok miss => if miss.isEmpty then .ok (tblGet NEXT cur "collect") else .ok cur

/-- The `while True` body of `advance_until_stable` (stage_machine.py lines
84-94).  The loop provably runs at most six iterations: every continuing
iteration inserts the current stage (always a member of the five-element
`STAGES`, see `next_stage`) into `seen` and stops as soon as a stage repeats,
so fuel 8 is never exhausted and the fuel-0 branch is unreachable. -/
def advance_loop (slots : Slots) : Nat → List String → String → Except String String
  | 0, _, _ => .error "unreachable"
  | fuel + 1, seen, cur =>
    if cur ∈ seen then .ok cur
    else
      match next_stage cur slots with
      | .error e => .error e
      | .ok nxt =>
        if nxt = cur then .ok cur
        else advance_loop slots fuel (cur :: seen) nxt

/-- `advance_until_stable` (stage_machine.py lines 84-94). -/
def advance_until_stable (current : String) (slots : Slots) : Except String String :=
  advance_loop slots 8 [] (if current ∈ STAGES then current else "collect")

-- ---------------------------------------------------------------------------
-- Association-list lemmas
-- ---------------------------------------------------------------------------

theorem dget_dset_self (d : Slots) (k : String) (v : PyVal) :
    dget (dset d k v) k = some v := by
  induction d with
  | nil => simp [dget, dset]
  | cons p t ih =>
    by_cases h : p.1 = k
    · simp [dget, dset, h]
    · simp [dget, dset, h, ih]

theorem dget_dset_ne (d : Slots) (k k' : String) (v : PyVal) (h : k' ≠ k) :
    dget (dset d k v) k' = dget d k' := by
  have hk : ¬(k = k') := fun hh => h hh.symm
  induction d with
  | nil => simp [dget, dset, hk]
  | cons p t ih =>
    obtain ⟨pk, pv⟩ := p
    by_cases hp : pk = k
    · subst hp
      simp [dget, dset, hk]
    · simp [dget, dset, hp, ih]

theorem dhas_dset (d : Slots) (k k' : String) (v : PyVal)
    (h : dhas d k' = true) : dhas (dset d k v) k' = true := by
  by_cases hk : k' = k
  · subst hk; simp [dhas, dget_dset_self]
  · simpa [dhas, dget_dset_ne d k k' v hk] using h

theorem pyGet_dset_ne (d : Slots) (k k' : String) (v : PyVal) (h : k' ≠ k) :
    pyGet (dset d k v) k' = pyGet d k' := by
  simp [pyGet, dget_dset_ne d k k' v h]

theorem is_filled_dset_ne (key : String) (d : Slots) (k : String) (v : PyVal)
    (h : key ≠ k) : _is_filled key (dset d k v) = _is_filled key d := by
  simp only [_is_filled, pyGet_dset_ne d k key v h]

-- ---------------------------------------------------------------------------
-- C2: static requirements of the `collect` stage
-- ---------------------------------------------------------------------------

/-- C2 (code_bug evaluation): the code's `REQUIRED["collect"]` is
`["role_title"]` only, so `missing_for_stage("collect", {})` returns just
`["role_title"]` and `next_stage("collect", {role_title: ...})` already
advances to `"enrich"` with location and budget still unfilled — contradicting
the claim and the repository's own test `test_missing_collect_blank`, which
expects `["role_title", "location", "budget"]`. -/
theorem collect_stage_requires_only_role_title :
    missing_for_stage "collect" [] = .ok ["role_title"] ∧
    next_stage "collect" [("role_title", PyVal.str "data engineer")] = .ok "enrich" := by
  constructor <;> rfl

-- ---------------------------------------------------------------------------
-- C6: dynamic contract gating at the `enrich` stage
-- ---------------------------------------------------------------------------

theorem et_nonempty_of_contract (et : String)
    (hC : strLower (strStrip et) = "contract") : et.toList ≠ [] := by
  intro hE
  have hs : strStrip et = "" := by
    simp only [strStrip, pyStrip, hE, rstrip, lstrip, List.dropWhile]
    rfl
  rw [hs] at hC
  exact absurd hC (by decide)

theorem dynamic_required_contract (slots : Slots) (et : String)
    (hET : dget slots "employment_type" = some (PyVal.str et))
    (hC : strLower (strStrip et) = "contract")
    (hD : _is_filled "duration" slots = false) :
    _dynamic_required "enrich" slots = .ok ["duration"] := by
  have het := et_nonempty_of_contract et hC
  have hdata : et.data ≠ [] := het
  simp [_dynamic_required, pyGet, hET, pyOrEmptyStr, truthy, hdata, hC, hD,
    List.isEmpty_iff]

theorem dynamic_required_contract_filled (slots : Slots) (et : String)
    (hET : dget slots "employment_type" = some (PyVal.str et))
    (hC : strLower (strStrip et) = "contract")
    (hD : _is_filled "duration" slots = true) :
    _dynamic_required "enrich" slots = .ok [] := by
  have het := et_nonempty_of_contract et hC
  have hdata : et.data ≠ [] := het
  simp [_dynamic_required, pyGet, hET, pyOrEmptyStr, truthy, hdata, hC, hD,
    List.isEmpty_iff]

/-- C6: with `employment_type = "contract"` (case-insensitively, after
trimming) and `duration` unfilled, `next_stage("enrich", slots)` stays at
`"enrich"` whatever the other slots hold; if budget, location, seniority and
stack are additionally filled, setting `duration` to a non-blank string makes
`next_stage("enrich", ·)` advance to `"match"`. -/
theorem enrich_contract_duration_gating (slots : Slots) (et : String)
    (hET : dget slots "employment_type" = some (PyVal.str et))
    (hC : strLower (strStrip et) = "contract")
    (hD : _is_filled "duration" slots = false) :
    next_stage "enrich" slots = .ok "enrich" ∧
    (∀ d : String, (pyStrip d.toList).isEmpty = false →
      _is_filled "budget" slots = true →
      _is_filled "location" slots = true →
      _is_filled "seniority" slots = true →
      _is_filled "stack" slots = true →
      next_stage "enrich" (dset slots "duration" (PyVal.str d)) = .ok "match") := by
  have hcoerce : (if "enrich" ∈ STAGES then "enrich" else "collect") = "enrich" := by
    decide
  constructor
  · have hdyn := dynamic_required_contract slots et hET hC hD
    have hmiss : missing_for_stage "enrich" slots =
        .ok ((["budget", "location", "seniority", "stack", "duration"]).filter
          (fun k => !_is_filled k slots)) := by
      simp only [missing_for_stage, hcoerce, hdyn]
      rfl
    have hmem : "duration" ∈
        (["budget", "location", "seniority", "stack", "duration"]).filter
          (fun k => !_is_filled k slots) := by
      simp [List.mem_filter, hD]
    have hne := List.ne_nil_of_mem hmem
    simp only [next_stage, hcoerce, hmiss]
    simp [List.isEmpty_iff, hne]
  · intro d hd hb hl hs hst
    set slots' := dset slots "duration" (PyVal.str d) with hs'
    have hdne : pyStrip d.data ≠ [] := by
      simpa [List.isEmpty_iff] using hd
    have hET' : dget slots' "employment_type" = some (PyVal.str et) := by
      rw [hs', dget_dset_ne slots "duration" "employment_type" _ (by decide)]
      exact hET
    have hDf : _is_filled "duration" slots' = true := by
      simp [_is_filled, pyGet, hs', dget_dset_self, _filled_simple, hdne,
        List.isEmpty_iff]
    have hdyn := dynamic_required_contract_filled slots' et hET' hC hDf
    have hfl : ∀ k, k ≠ "duration" → _is_filled k slots' = _is_filled k slots :=
      fun k hk => by rw [hs', is_filled_dset_ne k slots "duration" _ hk]
    have hmiss : missing_for_stage "enrich" slots' = .ok [] := by
      simp only [missing_for_stage, hcoerce, hdyn]
      simp only [reqGet, REQUIRED, pyDedup, pyDedupAux, List.append_nil]
      simp [hfl "budget" (by decide), hfl "location" (by decide),
        hfl "seniority" (by decide), hfl "stack" (by decide), hb, hl, hs, hst]
    simp only [next_stage, hcoerce, hmiss]
    rfl

/-- Witness for `enrich_contract_duration_gating` at a concrete contract-role
slot set. -/
theorem enrich_contract_duration_gating_witness :
    next_stage "enrich"
      [("employment_type", PyVal.str "contract"),
       ("budget", PyVal.dict [("raw", PyVal.str "$25 / hr")]),
       ("location", PyVal.str "Bengaluru"),
       ("seniority", PyVal.str "mid"),
       ("stack", PyVal.list [PyVal.str "python"])] = .ok "enrich" ∧
    next_stage "enrich"
      (dset
        [("employment_type", PyVal.str "contract"),
         ("budget", PyVal.dict [("raw", PyVal.str "$25 / hr")]),
         ("location", PyVal.str "Bengaluru"),
         ("seniority", PyVal.str "mid"),
         ("stack", PyVal.list [PyVal.str "python"])]
        "duration" (PyVal.str "6 months")) = .ok "match" := by
  have h := enrich_contract_duration_gating
    [("employment_type", PyVal.str "contract"),
     ("budget", PyVal.dict [("raw", PyVal.str "$25 / hr")]),
     ("location", PyVal.str "Bengaluru"),
     ("seniority", PyVal.str "mid"),
     ("stack", PyVal.list [PyVal.str "python"])]
    "contract" rfl rfl rfl
  exact ⟨h.1, h.2 "6 months" rfl rfl rfl rfl rfl⟩

-- ---------------------------------------------------------------------------
-- C7: fixed-point stability of `advance_until_stable`
-- ---------------------------------------------------------------------------

/-- The spec's data-model typing of `employment_type` (§3: `string | empty`):
the stored value is a string or falsy.  On any other value the source raises
`AttributeError` inside `_dynamic_required`. -/
def etOK (slots : Slots) : Bool :=
  match pyGet slots "employment_type" with
  | .str _ => true
  | v => !truthy v

/-- The string `(slots.get("employment_type") or "")` coerces to, when no
exception is raised. -/
def etStrP (slots : Slots) : String :=
  match pyGet slots "employment_type" with
  | .str s => s
  | _ => ""

theorem str_eq_empty_of_data_nil (s : String) (h : s.data = []) : s = "" := by
  cases s
  simp_all

theorem pyOrEmptyStr_ok (slots : Slots) (hok : etOK slots = true) :
    pyOrEmptyStr (pyGet slots "employment_type") = .ok (etStrP slots) := by
  unfold etOK at hok
  unfold etStrP pyOrEmptyStr
  cases h : pyGet slots "employment_type" <;> rw [h] at hok <;>
    simp [truthy] at hok ⊢ <;> try simp [hok]
  case str s =>
    by_cases he : s.data = []
    · simp [he, str_eq_empty_of_data_nil s he]
    · simp [he]

/-- Error-free projection of `_dynamic_required`. -/
def dynP (stage : String) (slots : Slots) : List String :=
  if stage = "enrich" then
    if strLower (strStrip (etStrP slots)) = "contract" && !_is_filled "duration" slots
    then ["duration"] else []
  else []

theorem dynamic_required_ok (stage : String) (slots : Slots)
    (hok : etOK slots = true) :
    _dynamic_required stage slots = .ok (dynP stage slots) := by
  unfold _dynamic_required dynP
  by_cases hs : stage = "enrich"
  · rw [if_pos hs, if_pos hs, pyOrEmptyStr_ok slots hok]
    cases hc : (decide (strLower (strStrip (etStrP slots)) = "contract") &&
        !_is_filled "duration" slots) <;> simp [hc]
  · rw [if_neg hs, if_neg hs]


/-- Error-free projection of `missing_for_stage`. -/
def missP (stage : String) (slots : Slots) : List String :=
  let st := if stage ∈ STAGES then stage else "collect"
  (pyDedup (reqGet st ++ dynP st slots)).filter (fun k => !_is_filled k slots)

theorem missing_for_stage_ok (stage : String) (slots : Slots)
    (hok : etOK slots = true) :
    missing_for_stage stage slots = .ok (missP stage slots) := by
  unfold missing_for_stage missP
  simp only [dynamic_required_ok _ slots hok]

/-- Error-free projection of `next_stage`. -/
def nextP (current : String) (slots : Slots) : String :=
  let cur := if current ∈ STAGES then current else "collect"
  if (missP cur slots).isEmpty then tblGet NEXT cur "collect" else cur

theorem next_stage_ok (current : String) (slots : Slots)
    (hok : etOK slots = true) :
    next_stage current slots = .ok (nextP current slots) := by
  unfold next_stage nextP
  simp only [missing_for_stage_ok _ slots hok]
  split <;> split <;> rfl

/-- Position of a stage in the linear chain. -/
def stageRank (s : String) : Nat :=
  if s = "collect" then 0
  else if s = "enrich" then 1
  else if s = "match" then 2
  else if s = "schedule" then 3
  else if s = "close" then 4
  else 5

theorem stageRank_le_four (cur : String) (h : cur ∈ STAGES) :
    stageRank cur ≤ 4 := by
  fin_cases h <;> decide

/-- On a stage of the chain, `next_stage` either stays put or moves exactly one
step forward along `collect → enrich → match → schedule → close`. -/
theorem nextP_chain (slots : Slots) (cur : String) (h : cur ∈ STAGES) :
    nextP cur slots ∈ STAGES ∧
      (nextP cur slots = cur ∨ stageRank (nextP cur slots) = stageRank cur + 1) := by
  have hn : nextP cur slots =
      if (missP cur slots).isEmpty then tblGet NEXT cur "collect" else cur := by
    unfold nextP
    rw [if_pos h]
  cases hm : (missP cur slots).isEmpty
  · rw [hn, if_neg (by simp [hm])]
    exact ⟨h, Or.inl rfl⟩
  · rw [hn, if_pos hm]
    fin_cases h <;> decide

theorem advance_loop_ok (slots : Slots) (hok : etOK slots = true) :
    ∀ fuel seen cur, cur ∈ STAGES →
      (∀ x ∈ seen, stageRank x < stageRank cur) →
      6 - stageRank cur ≤ fuel →
      ∃ r, advance_loop slots fuel seen cur = .ok r ∧ r ∈ STAGES ∧
        nextP r slots = r := by
  intro fuel
  induction fuel with
  | zero =>
    intro seen cur hcur _ hfuel
    have := stageRank_le_four cur hcur
    omega
  | succ fuel ih =>
    intro seen cur hcur hseen hfuel
    have hnotmem : cur ∉ seen := fun hmem => absurd (hseen cur hmem) (by omega)
    obtain ⟨hnS, hstep⟩ := nextP_chain slots cur hcur
    rcases hstep with hfix | hrank
    · refine ⟨cur, ?_, hcur, hfix⟩
      simp [advance_loop, hnotmem, next_stage_ok cur slots hok, hfix]
    · by_cases heq : nextP cur slots = cur
      · refine ⟨cur, ?_, hcur, heq⟩
        simp [advance_loop, hnotmem, next_stage_ok cur slots hok, heq]
      · have hinv : ∀ x ∈ cur :: seen, stageRank x < stageRank (nextP cur slots) := by
          intro x hx
          rcases List.mem_cons.mp hx with rfl | hx'
          · omega
          · have := hseen x hx'
            omega
        obtain ⟨r, hr, hrS, hrfix⟩ :=
          ih (cur :: seen) (nextP cur slots) hnS hinv (by omega)
        refine ⟨r, ?_, hrS, hrfix⟩
        simp only [advance_loop, next_stage_ok cur slots hok]
        rw [if_neg hnotmem, if_neg heq]
        exact hr

/-- C7: for every starting stage string (recognized or not) and every slot set
typed as in the spec's data model (`employment_type` a string or absent),
`advance_until_stable` succeeds, returns a member of `STAGES`, and is a fixed
point: applying it again to its own result returns that result unchanged. -/
theorem advance_until_stable_fixed_point (s : String) (slots : Slots)
    (hok : etOK slots = true) :
    ∃ r, advance_until_stable s slots = .ok r ∧ r ∈ STAGES ∧
      advance_until_stable r slots = .ok r := by
  have hmem : (if s ∈ STAGES then s else "collect") ∈ STAGES := by
    by_cases h : s ∈ STAGES
    · rw [if_pos h]; exact h
    · rw [if_neg h]; simp [STAGES]
  obtain ⟨r, hr, hrS, hrfix⟩ :=
    advance_loop_ok slots hok 8 [] (if s ∈ STAGES then s else "collect") hmem
      (by simp) (by have := stageRank_le_four _ hmem; omega)
  refine ⟨r, hr, hrS, ?_⟩
  unfold advance_until_stable
  rw [if_pos hrS]
  simp [advance_loop, next_stage_ok r slots hok, hrfix]

/-- Witness for `advance_until_stable_fixed_point` at a concrete slot set. -/
theorem advance_until_stable_fixed_point_witness :
    ∃ r, advance_until_stable "bogus"
        [("role_title", PyVal.str "PM"), ("location", PyVal.str "Delhi"),
         ("budget", PyVal.dict [("raw", PyVal.str "₹20 LPA")])] = .ok r ∧
      r ∈ STAGES ∧
      advance_until_stable r
        [("role_title", PyVal.str "PM"), ("location", PyVal.str "Delhi"),
         ("budget", PyVal.dict [("raw", PyVal.str "₹20 LPA")])] = .ok r :=
  advance_until_stable_fixed_point "bogus"
    [("role_title", PyVal.str "PM"), ("location", PyVal.str "Delhi"),
     ("budget", PyVal.dict [("raw", PyVal.str "₹20 LPA")])] rfl

-- ---------------------------------------------------------------------------
-- A backtracking regular-expression engine
--
-- `mrun` enumerates the possible matches of a pattern at a fixed position, in
-- exactly CPython's backtracking priority order: alternation is left to right,
-- `?`/`*`/`{m,n}` prefer the longer match, and a sequence backtracks its left
-- part before its right.  `searchFrom` then scans start positions left to
-- right and keeps the first (highest-priority) match, which is the semantics
-- of `re.search`.  The fuel argument only bounds recursion depth: every
-- `star` unfolding consumes at least one character (empty-width iterations
-- are filtered out, and no starred subpattern of the library is nullable), so
-- the depth is at most `reSize re * (length s + 1)` and `fuelFor` is never
-- exhausted.
-- ---------------------------------------------------------------------------

/-- Regex abstract syntax: character classes, sequencing, ordered alternation,
named groups, greedy option/star, word boundary `\b` and end anchor `$`. -/
inductive RE where
  | eps : RE
  | cls : (Char → Bool) → RE
  | seq : RE → RE → RE
  | alt : RE → RE → RE
  | grp : String → RE → RE
  | opt : RE → RE
  | star : RE → RE
  | bnd : RE
  | eol : RE

/-- One way a pattern can match at the current position: the consumed
characters, the named-group captures, and the remaining input. -/
structure MRes where
  consumed : List Char
  groups : List (String × List Char)
  rest : List Char

/-- The character preceding the remaining input after consuming `consumed`. -/
def lastOr (prev : Option Char) (consumed : List Char) : Option Char :=
  match consumed.getLast? with
  | some c => some c
  | none => prev

/-- Concatenate two adjacent match results. -/
def catM (m1 m2 : MRes) : MRes :=
  ⟨m1.consumed ++ m2.consumed, m1.groups ++ m2.groups, m2.rest⟩

/-- All matches of `re` at the start of `s` (`prev` = character before `s`),
in backtracking priority order. -/
def mrun : Nat → RE → Option Char → List Char → List MRes
  | 0, _, _, _ => []
  | fuel + 1, re, prev, s =>
    match re with
    | .eps => [⟨[], [], s⟩]
    | .bnd => if wordBoundary prev s.head? then [⟨[], [], s⟩] else []
    | .eol => if s.isEmpty || s = ['\n'] then [⟨[], [], s⟩] else []
    | .cls p =>
      match s with
      | [] => []
      | c :: t => if p c then [⟨[c], [], t⟩] else []
    | .seq a b =>
      (mrun fuel a prev s).flatMap (fun m1 =>
        (mrun fuel b (lastOr prev m1.consumed) m1.rest).map (catM m1))
    | .alt a b => mrun fuel a prev s ++ mrun fuel b prev s
    | .grp g r =>
      (mrun fuel r prev s).map (fun m =>
        ⟨m.consumed, m.groups ++ [(g, m.consumed)], m.rest⟩)
    | .opt r => mrun fuel r prev s ++ [⟨[], [], s⟩]
    | .star r =>
      ((mrun fuel r prev s).filter (fun m => !m.consumed.isEmpty)).flatMap (fun m1 =>
        (mrun fuel (.star r) (lastOr prev m1.consumed) m1.rest).map (catM m1))
        ++ [⟨[], [], s⟩]

/-- Structural size of a pattern, used to compute sufficient fuel. -/
def reSize : RE → Nat
  | .seq a b => reSize a + reSize b + 1
  | .alt a b => reSize a + reSize b + 1
  | .grp _ r => reSize r + 1
  | .opt r => reSize r + 1
  | .star r => reSize r + 1
  | _ => 1

/-- Fuel sufficient for `mrun` (see the header comment of this section). -/
def fuelFor (re : RE) (s : List Char) : Nat :=
  (s.length + 2) * (reSize re + 2)

/-- `re.search` from a given position: try each start position left to right,
returning the match index and the highest-priority match. -/
def searchIdxFrom (re : RE) : Nat → Option Char → List Char → Option (Nat × MRes)
  | i, prev, [] =>
    match mrun (fuelFor re []) re prev [] with
    | m :: _ => some (i, m)
    | [] => none
  | i, prev, c :: t =>
    match mrun (fuelFor re (c :: t)) re prev (c :: t) with
    | m :: _ => some (i, m)
    | [] => searchIdxFrom re (i + 1) (some c) t

/-- `re.search(pattern, s)`. -/
def research (re : RE) (s : List Char) : Option MRes :=
  (searchIdxFrom re 0 Option.none s).map Prod.snd

/-- `m.groupdict()[g]`: the capture of named group `g`, if it participated. -/
def mgroup (m : MRes) (g : String) : Option (List Char) :=
  (m.groups.find? (fun p => p.1 = g)).map Prod.snd

/-- Case-insensitive literal (the `(?i)` flag). -/
def litCI : List Char → RE
  | [] => .eps
  | c :: t => .seq (.cls (fun x => x.toLower = c.toLower)) (litCI t)

/-- Case-sensitive literal. -/
def litCS : List Char → RE
  | [] => .eps
  | c :: t => .seq (.cls (fun x => x = c)) (litCS t)

/-- Case-insensitive literal from a string. -/
def strCI (s : String) : RE := litCI s.toList

/-- Case-sensitive literal from a string. -/
def strCS (s : String) : RE := litCS s.toList

/-- Ordered alternation of a list of patterns. -/
def altList : List RE → RE
  | [] => .cls (fun _ => false)
  | [r] => r
  | r :: rs => .alt r (altList rs)

/-- Sequence of a list of patterns. -/
def seqList : List RE → RE
  | [] => .eps
  | [r] => r
  | r :: rs => .seq r (seqList rs)

/-- Greedy `+`. -/
def rePlus (r : RE) : RE := .seq r (.star r)

/-- Exactly `n` repetitions. -/
def reRep (r : RE) : Nat → RE
  | 0 => .eps
  | n + 1 => .seq r (reRep r n)

/-- Greedy `{0,n}`: `opt (r (opt (r ...)))`, preferring more repetitions. -/
def reUpto (r : RE) : Nat → RE
  | 0 => .eps
  | n + 1 => .opt (.seq r (reUpto r n))

/-- Greedy `{lo,hi}`. -/
def reRange (r : RE) (lo hi : Nat) : RE :=
  .seq (reRep r lo) (reUpto r (hi - lo))

/-- `\s*`. -/
def wsStar : RE := .star (.cls pySpace)

/-- `\s+`. -/
def wsPlus : RE := rePlus (.cls pySpace)

/-- `\d` (ASCII). -/
def digitRE : RE := .cls Char.isDigit

-- ---------------------------------------------------------------------------
-- Budget extraction (`slot_extraction.py` lines 7-43 and 143-192)
-- ---------------------------------------------------------------------------

/-- `_DASHES` (line 7): fancy dashes normalized to `-`. -/
def _DASHES : List Char := ['‒', '–', '—', '−']

/-- `_DASH_RE.sub("-", text)` applied characterwise. -/
def dashNorm (c : Char) : Char := if c ∈ _DASHES then '-' else c

/-- Currency alternation `₹|rs\.?|inr|\$|usd|eur|£` under `(?i)`. -/
def curRE : RE :=
  altList [strCS "₹", .seq (strCI "rs") (.opt (strCS ".")), strCI "inr",
    strCS "$", strCI "usd", strCI "eur", strCS "£"]

/-- Numeric alternation `\d{1,3}(?:[,\s]\d{3})*|\d+(?:\.\d+)?`. -/
def numRE : RE :=
  .alt
    (.seq (reRange digitRE 1 3)
      (.star (.seq (.cls (fun c => c = ',' || pySpace c)) (reRep digitRE 3))))
    (.seq (rePlus digitRE) (.opt (.seq (.cls (fun c => c = '.')) (rePlus digitRE))))

/-- Unit alternation `k|m|cr|crore|lpa|lac|lakh|lakhs` under `(?i)`. -/
def unitRE : RE :=
  altList [strCI "k", strCI "m", strCI "cr", strCI "crore", strCI "lpa",
    strCI "lac", strCI "lakh", strCI "lakhs"]

/-- Period alternation `mo|month|hr|hour|yr|year|annum|pa|day|d` under `(?i)`. -/
def periodRE : RE :=
  altList [strCI "mo", strCI "month", strCI "hr", strCI "hour", strCI "yr",
    strCI "year", strCI "annum", strCI "pa", strCI "day", strCI "d"]

/-- Range separator `(?:-|to|–|—|~)`. -/
def sepRE : RE :=
  altList [strCS "-", strCI "to", strCS "–", strCS "—", strCS "~"]

/-- Trailing `(?:\s*(?:/|per)\s*(?P<period>...))?`. -/
def periodPart : RE :=
  .opt (seqList [wsStar, .alt (strCS "/") (strCI "per"), wsStar,
    .grp "period" periodRE])

/-- `_BUDGET_RANGE` (lines 27-35). -/
def _BUDGET_RANGE : RE :=
  seqList [.opt (.grp "cur1" curRE), wsStar, .grp "v1" numRE, wsStar, sepRE,
    wsStar, .grp "v2" numRE, wsStar, .opt (.grp "unit" unitRE),
    .opt (.seq wsStar (.grp "cur2" curRE)), periodPart]

/-- `_BUDGET_SINGLE` (lines 37-43). -/
def _BUDGET_SINGLE : RE :=
  seqList [.opt (.grp "cur1" curRE), wsStar, .grp "v1" numRE,
    .opt (.seq wsStar (.grp "cur2" curRE)), wsStar, .opt (.grp "unit" unitRE),
    periodPart]

/-- `_norm_cur` (lines 17-23). -/
def _norm_cur (c : List Char) : List Char :=
  let cl := pyLower (pyStrip c)
  if cl = "₹".toList || cl = "rs".toList || cl = "rs.".toList || cl = "inr".toList
  then "₹".toList
  else if cl = "$".toList || cl = "usd".toList then "$".toList
  else if cl = "eur".toList || cl = "€".toList then "€".toList
  else if cl = "gbp".toList || cl = "£".toList then "£".toList
  else pyUpper cl

/-- `x.replace(",", "").replace(" ", "")` inside `_num` (line 15). -/
def numClean (s : List Char) : List Char :=
  s.filter (fun c => c ≠ ',' && c ≠ ' ')

/-- Value of a digit string. -/
def digitsVal (ds : List Char) : Nat :=
  ds.foldl (fun n c => n * 10 + (c.toNat - '0'.toNat)) 0

/-- `float(x)` restricted to the digit/decimal shapes the budget regex can
produce; any other character (e.g. an interior tab that `.replace(" ", "")`
does not remove) raises `ValueError` in the source, i.e. yields `none`. -/
def pyFloatQ (s : List Char) : Option ℚ :=
  let ip := s.takeWhile Char.isDigit
  let rest := s.drop ip.length
  if ip.isEmpty then none
  else
    match rest with
    | [] => some (mkRat (Int.ofNat (digitsVal ip)) 1)
    | '.' :: fp =>
      if !fp.isEmpty && fp.all Char.isDigit then
        some (mkRat (Int.ofNat (digitsVal ip * 10 ^ fp.length + digitsVal fp))
          (10 ^ fp.length))
      else none
    | _ => none

/-- Exact multiplication of a rational by a natural scale factor, phrased via
`mkRat` so that it reduces inside the kernel (`Rat.mul` is irreducible). -/
def scaleQ (q : ℚ) (n : Nat) : ℚ :=
  mkRat (q.num * Int.ofNat n) q.den

/-- Units that force the default `₹` currency (line 175). -/
def inrUnits : List (List Char) :=
  ["lpa".toList, "lac".toList, "lakh".toList, "lakhs".toList, "cr".toList,
   "crore".toList]

/-- `budget` (lines 143-192). -/
def budget (text : String) : Option Slots :=
  if text.toList.isEmpty then none
  else
    let s := text.toList.map dashNorm
    match (research _BUDGET_RANGE s).orElse (fun _ => research _BUDGET_SINGLE s) with
    | none => none
    | some m =>
      let cur0 := pyStrip (((mgroup m "cur1").orElse
        (fun _ => mgroup m "cur2")).getD [])
      let v1 := (mgroup m "v1").getD []
      let v2 := (mgroup m "v2").getD v1
      let unitTok := pyLower ((mgroup m "unit").getD [])
      let periodTok := pyLower ((mgroup m "period").getD [])
      let rawSpan := m.consumed
      -- duration guard (lines 158-160)
      if cur0.isEmpty && unitTok.isEmpty && !periodTok.isEmpty &&
          !subIn "per".toList (pyLower rawSpan) && !subIn "/".toList rawSpan
      then none
      else
        let cur1 := _norm_cur cur0
        match pyFloatQ (numClean v1), pyFloatQ (numClean v2) with
        | some v1f, some v2f =>
          let periodNorm :=
            if periodTok = "hr".toList || periodTok = "hour".toList then "hour"
            else if periodTok = "mo".toList || periodTok = "month".toList then "month"
            else if periodTok = "yr".toList || periodTok = "year".toList ||
                periodTok = "annum".toList || periodTok = "pa".toList then "year"
            else if periodTok = "day".toList || periodTok = "d".toList then "day"
            else ""
          let curF :=
            if cur1.isEmpty && unitTok ∈ inrUnits then "₹".toList else cur1
          -- `if unit == "k": v *= 1_000` / `if unit == "m": v *= 1_000_000`
          let scaled := fun (v : ℚ) =>
            if unitTok = "k".toList then scaleQ v 1000
            else if unitTok = "m".toList then scaleQ v 1000000
            else v
          some [("currency", PyVal.str curF.asString),
                ("min", PyVal.num (scaled v1f)),
                ("max", PyVal.num (scaled v2f)),
                ("unit", PyVal.str unitTok.asString),
                ("period", PyVal.str periodNorm),
                ("raw", PyVal.str (pyStrip rawSpan).asString)]
        | _, _ => none

/-- C5: the two reference budget parses.  `"18–22 LPA"` scales nothing, keeps
`unit = "lpa"` and forces the default `₹` currency; `"20$ per hr"` duplicates
the single value into both bounds and normalizes `hr` to `hour`. -/
theorem budget_reference_parses :
    budget "18–22 LPA" = some
      [("currency", PyVal.str "₹"), ("min", PyVal.num 18), ("max", PyVal.num 22),
       ("unit", PyVal.str "lpa"), ("period", PyVal.str ""),
       ("raw", PyVal.str "18-22 LPA")] ∧
    budget "20$ per hr" = some
      [("currency", PyVal.str "$"), ("min", PyVal.num 20), ("max", PyVal.num 20),
       ("unit", PyVal.str ""), ("period", PyVal.str "hour"),
       ("raw", PyVal.str "20$ per hr")] := by
  exact ⟨rfl, rfl⟩

-- ---------------------------------------------------------------------------
-- Location extraction (`slot_extraction.py` lines 45, 194-201)
-- ---------------------------------------------------------------------------

/-- `_LOC_HINTS` (line 45).  The source stores these in a Python `set`, whose
iteration order is implementation-defined; this embedding fixes the source
order.  The theorems below only use consequences that hold for every order. -/
def _LOC_HINTS : List String :=
  ["remote", "hybrid", "onsite", "on-site", "work from home", "wfh"]

/-- Character class `[a-zA-Z\-\s]` of the location fallback pattern. -/
def locCls (c : Char) : Bool :=
  c.isAlpha || c = '-' || pySpace c

/-- Backtracking of the trailing `\b` after the greedy `{2,40}` group: try
group widths `k+1` down to `2` (first char excluded), returning the captured
characters of the widest width whose right edge is a word boundary. -/
def tryWidths (c0 : Char) (rest2 run : List Char) : Nat → Option (List Char)
  | 0 => none
  | k + 1 =>
    if k + 1 < 2 then none
    else if wordBoundary (c0 :: run.take (k + 1)).getLast?
        ((rest2.drop (k + 1)).head?) then some (c0 :: run.take (k + 1))
    else tryWidths c0 rest2 run k

/-- The capture part `[A-Z][a-zA-Z\-\s]{2,40}\b` of the location fallback
(with `(?i)`, so `[A-Z]` matches either case), applied after `\s+`. -/
def inAtGroup (afterSp : List Char) : Option (List Char) :=
  match afterSp with
  | c0 :: rest2 =>
    if c0.isAlpha then
      tryWidths c0 rest2 ((rest2.takeWhile locCls).take 40)
        ((rest2.takeWhile locCls).take 40).length
    else none
  | [] => none

/-- One attempt of `\b(?:in|at)\s+([A-Z][a-zA-Z\-\s]{2,40})\b` (compiled with
`(?i)`) at the current position. -/
def tryInAt (prev : Option Char) (s : List Char) : Option (List Char) :=
  match s with
  | c1 :: c2 :: rest =>
    if wordBoundary prev (some c1) &&
        ((c1.toLower = 'i' && c2.toLower = 'n') ||
         (c1.toLower = 'a' && c2.toLower = 't')) then
      if (rest.takeWhile pySpace).isEmpty then none
      else inAtGroup (rest.drop (rest.takeWhile pySpace).length)
    else none
  | _ => none

/-- `re.search` scan for the location fallback pattern. -/
def locScan : Option Char → List Char → Option (List Char)
  | _, [] => none
  | prev, c :: t =>
    match tryInAt prev (c :: t) with
    | some g => some g
    | none => locScan (some c) t

/-- `location` (lines 194-201). -/
def location (text : String) : Option String :=
  if text.toList.isEmpty then none
  else
    match _LOC_HINTS.find? (fun kw => subIn kw.toList (pyLower text.toList)) with
    | some kw => some (if kw = "remote" then "Remote" else kw)
    | none => (locScan Option.none text.toList).map (fun g => (norm_spaces g).asString)

-- ---------------------------------------------------------------------------
-- Word-boundary search (`_CORRECTION`, `seniority`, tech-term scan)
-- ---------------------------------------------------------------------------

/-- Match the literal `w` at the head of `s` (`ci` = case-insensitive),
returning the matched source characters and the rest. -/
def litAt (ci : Bool) : List Char → List Char → Option (List Char × List Char)
  | [], s => some ([], s)
  | _ :: _, [] => none
  | w :: wt, c :: t =>
    if (if ci then c.toLower = w.toLower else c = w) then
      (litAt ci wt t).map (fun p => (c :: p.1, p.2))
    else none

/-- One attempt of `\b<w>\b` at the current position. -/
def wordHitAt (ci : Bool) (w : List Char) (prev : Option Char) (s : List Char) : Bool :=
  match litAt ci w s with
  | some (matched, rest) =>
    wordBoundary prev matched.head? && wordBoundary matched.getLast? rest.head?
  | none => false

/-- `re.search(rf"\b<w>\b", s)` scan over start positions. -/
def wordSearchAux (ci : Bool) (w : List Char) : Option Char → List Char → Bool
  | prev, [] => wordHitAt ci w prev []
  | prev, c :: t => wordHitAt ci w prev (c :: t) || wordSearchAux ci w (some c) t

/-- Boolean `re.search(rf"\b<w>\b", s)` for a literal word `w`. -/
def wordSearch (ci : Bool) (w : String) (s : List Char) : Bool :=
  wordSearchAux ci w.toList Option.none s

/-- The correction-marker alternatives of `_CORRECTION` (line 9). -/
def _CORRECTION_WORDS : List String :=
  ["change", "actually", "correction", "not", "instead", "rather", "make it",
   "update"]

/-- `_CORRECTION.search(user_text)` (line 9): `\b(change|actually|correction|
not|instead|rather|make it|update)\b` with `re.I`.  A match exists iff some
alternative matches at some position, so the word/position scan order does not
affect the Boolean result. -/
def correctionSearch (s : List Char) : Bool :=
  _CORRECTION_WORDS.any (fun w => wordSearch true w s)

/-- The seniority vocabulary (line 231). -/
def _SENIORITY : List String :=
  ["intern", "junior", "associate", "mid", "mid-level", "senior", "lead",
   "principal", "staff", "director", "vp", "head"]

/-- `seniority` (lines 229-234). -/
def seniority (text : String) : Option String :=
  if text.toList.isEmpty then none
  else _SENIORITY.find? (fun s => wordSearch true s text.toList)

-- ---------------------------------------------------------------------------
-- Role-title extraction (`slot_extraction.py` lines 47-52, 203-227)
-- ---------------------------------------------------------------------------

/-- `_ROLE_KEYWORDS` (lines 47-52). -/
def _ROLE_KEYWORDS : List String :=
  ["data engineer", "backend engineer", "frontend engineer",
   "full stack developer", "full-stack developer", "devops engineer", "sre",
   "ml engineer", "ai engineer", "software engineer", "python engineer",
   "java developer", "golang developer", "node developer", "react developer",
   "product manager", "qa", "tester", "analyst", "architect", "scientist",
   "designer", "manager", "developer", "engineer"]

/-- Character class `[a-z0-9\-\s]`. -/
def roleCls (c : Char) : Bool :=
  c.isLower || c.isDigit || c = '-' || pySpace c

/-- Character class `[a-z\-\s]`. -/
def cityCls (c : Char) : Bool :=
  c.isLower || c = '-' || pySpace c

/-- Pattern (a), line 207:
`(?:need|looking\s+for|hiring)\s+(?:an?\s+|the\s+)?([a-z][a-z0-9\-\s]{2,40})\b`. -/
def roleP1 : RE :=
  seqList [altList [strCS "need", seqList [strCS "looking", wsPlus, strCS "for"],
      strCS "hiring"],
    wsPlus,
    .opt (.alt (seqList [strCS "a", .opt (strCS "n"), wsPlus])
      (.seq (strCS "the") wsPlus)),
    .grp "1" (.seq (.cls Char.isLower) (reRange (.cls roleCls) 2 40)),
    .bnd]

/-- The truncation pattern of line 210, `\s+(for|at)\s+.*$`: only the start
index matters, because the candidate is whitespace-normalized (no newline) so
`.*$` always reaches the end of the string. -/
def truncForAtRE : RE :=
  seqList [wsPlus, .alt (strCS "for") (strCS "at"), wsPlus]

/-- `re.sub(r"\s+(for|at)\s+.*$", "", cand)`. -/
def subTrunc (cand : List Char) : List Char :=
  match searchIdxFrom truncForAtRE 0 Option.none cand with
  | some (i, _) => cand.take i
  | none => cand

/-- Pattern (b), line 214:
`\b([a-z][a-z0-9\-\s]{2,40})\s+(?:in|at)\s+[a-z][a-z\-\s]{2,40}\b`. -/
def roleP2 : RE :=
  seqList [.bnd, .grp "1" (.seq (.cls Char.isLower) (reRange (.cls roleCls) 2 40)),
    wsPlus, .alt (strCS "in") (strCS "at"), wsPlus,
    .seq (.cls Char.isLower) (reRange (.cls cityCls) 2 40), .bnd]

/-- The money/duration rejection pattern of line 217:
`\b(lpa|rs|inr|\$|\d|month|mo|yr|year|hour|hr)\b`. -/
def moneyRE : RE :=
  seqList [.bnd,
    .grp "1" (altList [strCS "lpa", strCS "rs", strCS "inr", strCS "$", digitRE,
      strCS "month", strCS "mo", strCS "yr", strCS "year", strCS "hour",
      strCS "hr"]),
    .bnd]

/-- Pattern (c), line 222: `\b([a-z][a-z0-9\-\s]{0,30}<kw>)\b` per keyword. -/
def roleKwRE (kw : String) : RE :=
  seqList [.bnd,
    .grp "1" (seqList [.cls Char.isLower, reUpto (.cls roleCls) 30, strCS kw]),
    .bnd]

/-- The keyword-fallback loop of lines 220-227: keep the longest candidate. -/
def roleP3go (t : List Char) : Option String :=
  let best := _ROLE_KEYWORDS.foldl (fun best kw =>
    match research (roleKwRE kw) t with
    | some m =>
      let cand := norm_spaces ((mgroup m "1").getD [])
      match best with
      | none => some cand
      | some b => if cand.length > b.length then some cand else some b
    | none => best) Option.none
  best.map List.asString

/-- Pattern (b) plus its rejection test (lines 214-218). -/
def roleP2go (t : List Char) : Option String :=
  match research roleP2 t with
  | some m =>
    let cand := norm_spaces ((mgroup m "1").getD [])
    if (research moneyRE cand).isSome then roleP3go t
    else some cand.asString
  | none => roleP3go t

/-- `role_title` (lines 203-227). -/
def role_title (text : String) : Option String :=
  if text.toList.isEmpty then none
  else
    let t := pyLower text.toList
    match research roleP1 t with
    | some m =>
      let cand := pyStrip (subTrunc (norm_spaces ((mgroup m "1").getD [])))
      if (cand.head?.map Char.isDigit).getD false then roleP2go t
      else some cand.asString
    | none => roleP2go t

-- ---------------------------------------------------------------------------
-- Tech-stack extraction (`slot_extraction.py` lines 54-140)
-- ---------------------------------------------------------------------------

/-- `_TECH_CANONICAL` (lines 55-80), in source order. -/
def _TECH_CANONICAL : List (String × String) :=
  [("python", "python"), ("java", "java"), ("javascript", "javascript"),
   ("typescript", "typescript"), ("js", "javascript"), ("ts", "typescript"),
   ("golang", "go"), ("go", "go"),
   ("c#", "csharp"), ("csharp", "csharp"), ("c++", "cpp"), ("cpp", "cpp"),
   ("ruby", "ruby"), ("php", "php"),
   ("scala", "scala"), ("rust", "rust"), ("kotlin", "kotlin"),
   ("node", "nodejs"), ("nodejs", "nodejs"), ("node.js", "nodejs"),
   ("react", "react"), ("reactjs", "react"), ("vue", "vue"), ("vuejs", "vue"),
   ("angular", "angular"),
   ("next", "nextjs"), ("nextjs", "nextjs"), ("nuxt", "nuxtjs"),
   ("nuxtjs", "nuxtjs"),
   ("express", "express"), ("fastapi", "fastapi"), ("flask", "flask"),
   ("django", "django"),
   ("spring", "spring"), ("springboot", "springboot"),
   ("spring-boot", "springboot"),
   ("rails", "rails"), ("laravel", "laravel"), (".net", "dotnet"),
   ("dotnet", "dotnet"),
   ("sql", "sql"), ("mysql", "mysql"), ("postgres", "postgres"),
   ("postgresql", "postgres"),
   ("mongodb", "mongodb"), ("redis", "redis"), ("kafka", "kafka"),
   ("hadoop", "hadoop"), ("spark", "spark"), ("airflow", "airflow"),
   ("pandas", "pandas"), ("numpy", "numpy"), ("tensorflow", "tensorflow"),
   ("pytorch", "pytorch"),
   ("sklearn", "scikit-learn"), ("scikit-learn", "scikit-learn"),
   ("ml", "ml"), ("machine learning", "ml"), ("deep learning", "deep-learning"),
   ("nlp", "nlp"), ("computer vision", "cv"), ("cv", "cv"), ("ai", "ai"),
   ("docker", "docker"), ("kubernetes", "kubernetes"), ("k8s", "kubernetes"),
   ("aws", "aws"), ("azure", "azure"), ("gcp", "gcp"),
   ("terraform", "terraform"), ("ansible", "ansible"),
   ("linux", "linux"), ("git", "git"), ("github", "github"),
   ("gitlab", "gitlab"), ("ci/cd", "cicd"), ("cicd", "cicd")]

/-- `_TECH_CANONICAL.get(t)`. -/
def techLookup (t : String) : Option String :=
  (_TECH_CANONICAL.find? (fun p => p.1 = t)).map Prod.snd

/-- Stable insertion into a length-descending list (equal lengths keep their
relative order). -/
def insLenDesc (x : String) : List String → List String
  | [] => [x]
  | y :: t => if x.length > y.length then x :: y :: t else y :: insLenDesc x t

/-- Stable insertion sort, longest first. -/
def sortLenDesc : List String → List String
  | [] => []
  | x :: t => insLenDesc x (sortLenDesc t)

/-- `_TECH_TERMS` (line 81): keys and values, deduplicated and sorted by
length, longest first.  The source sorts a Python `set`, so the relative
order of equal-length terms is implementation-defined; this embedding uses
the stable table order, which only affects the order in which equal-length
known techs are appended to the scan result. -/
def _TECH_TERMS : List String :=
  sortLenDesc (pyDedup (_TECH_CANONICAL.map Prod.fst ++
    _TECH_CANONICAL.map Prod.snd))

/-- `_canon_tech` (lines 87-94). -/
def _canon_tech (tok : List Char) : Option String :=
  let t := pyStrip (pyLower tok)
  if t.isEmpty then none
  else
    match techLookup t.asString with
    | some v => some v
    | none =>
      let t2 := pyStrip (t.filter (fun c => c ≠ '.'))
      match techLookup t2.asString with
      | some v => some v
      | none =>
        let t3 := t.filter (fun c =>
          c.isLower || c.isDigit || c = '+' || c = '#' || c = '.' || c = '-')
        if t3.isEmpty then none
        else some ((techLookup t3.asString).getD t3.asString)

/-- `_scan_known_techs` (lines 99-107): `\b`-delimited, case-sensitive search
of each known term over the lowered text. -/
def _scan_known_techs (text : List Char) : List String :=
  let low := pyLower text
  _TECH_TERMS.foldl (fun found term =>
    if wordSearch false term low then
      match _canon_tech term.toList with
      | some c => if found.contains c then found else found ++ [c]
      | none => found
    else found) []

/-- The alternatives of `_STACK_LEADS` (lines 82-85), in order. -/
def stackLeadREs : List RE :=
  [.seq (strCS "tech") (.seq wsStar (strCS "stack")),
   strCS "stack", strCS "skills",
   seqList [strCS "must", .star (.cls (fun c => c = '-' || pySpace c)),
     strCS "have", .opt (strCS "s")],
   seqList [strCS "nice", .star (.cls (fun c => c = '-' || pySpace c)),
     strCS "to", .star (.cls (fun c => c = '-' || pySpace c)),
     strCS "have", .opt (strCS "s")],
   seqList [strCS "experience", wsPlus, strCS "with"],
   seqList [strCS "experience", wsPlus, strCS "in"],
   seqList [strCS "proficient", wsPlus, strCS "in"],
   strCS "using"]

/-- `.` without `re.DOTALL`: any character but a newline. -/
def notNewline (c : Char) : Bool := c ≠ '\n'

/-- The lead-phrase pattern of line 114:
`(?:<leads>)\s*[:\-]?\s*(?P<list>.+)$`. -/
def stackLeadRE : RE :=
  seqList [altList stackLeadREs, wsStar, .opt (.cls (fun c => c = ':' || c = '-')),
    wsStar, .grp "list" (rePlus (.cls notNewline)), .eol]

/-- The split delimiters of `_split_stack_phrase` (line 97):
`[,\|/]|(?:\s+and\s+)|(?:\s*&\s*)`, in alternation order. -/
def splitDelimRE : RE :=
  altList [.cls (fun c => c = ',' || c = '|' || c = '/'),
    seqList [wsPlus, strCS "and", wsPlus],
    seqList [wsStar, strCS "&", wsStar]]

/-- `re.split` driver: cut at each leftmost delimiter match.  Every step
consumes at least one character, so fuel `length + 1` is never exhausted. -/
def splitByDelims : Nat → List Char → List Char → List (List Char)
  | 0, acc, rest => [acc.reverse ++ rest]
  | fuel + 1, acc, rest =>
    match rest with
    | [] => [acc.reverse]
    | c :: t =>
      match mrun (fuelFor splitDelimRE rest) splitDelimRE Option.none rest with
      | m :: _ => acc.reverse :: splitByDelims fuel [] m.rest
      | [] => splitByDelims fuel (c :: acc) t

/-- `_split_stack_phrase` (lines 96-97). -/
def _split_stack_phrase (s : List Char) : List (List Char) :=
  ((splitByDelims (s.length + 1) [] s).map pyStrip).filter (fun p => !p.isEmpty)

/-- `str.upper()` at string level. -/
def strUpper (s : String) : String :=
  (pyUpper s.toList).asString

/-- Python `str.capitalize()`: first character upper-cased, rest lowered. -/
def capitalizeStr (s : String) : String :=
  match s.toList with
  | [] => ""
  | c :: t => (c.toUpper :: pyLower t).asString

/-- The prettifying of lines 129-140. -/
def prettyTech (c : String) : String :=
  if c = "ai" || c = "ml" || c = "nlp" || c = "cv" || c = "sql" || c = "aws" ||
      c = "gcp" || c = "cicd" then strUpper c
  else if c = "dotnet" then ".NET"
  else if c = "csharp" then "C#"
  else if c = "cpp" then "C++"
  else if c = "nodejs" then "Node.js"
  else if c = "nextjs" then "Next.js"
  else if c = "nuxtjs" then "Nuxt.js"
  else capitalizeStr c

/-- `tech_stack` (lines 109-140). -/
def tech_stack (text : String) : Option (List String) :=
  if text.toList.isEmpty then none
  else
    let t := pyStrip text.toList
    let low := pyLower t
    let cand1 :=
      match research stackLeadRE low with
      | some m =>
        (_split_stack_phrase ((mgroup m "list").getD [])).foldl (fun cand part =>
          match _canon_tech part with
          | some c => if cand.contains c then cand else cand ++ [c]
          | none => cand) []
      | none => []
    let cand :=
      (_scan_known_techs t).foldl (fun cand c =>
        if cand.contains c then cand else cand ++ [c]) cand1
    if cand.isEmpty then none
    else some ((cand.map prettyTech).take 12)

-- ---------------------------------------------------------------------------
-- `extract_slots_from_turn` (`slot_extraction.py` lines 236-264)
-- ---------------------------------------------------------------------------

/-- The five extractors as Python values (`None` when nothing was found). -/
def budgetV (text : String) : PyVal :=
  match budget text with
  | some d => .dict d
  | none => .none

/-- `location` as a Python value. -/
def locationV (text : String) : PyVal :=
  match location text with
  | some s => .str s
  | none => .none

/-- `role_title` as a Python value. -/
def role_titleV (text : String) : PyVal :=
  match role_title text with
  | some s => .str s
  | none => .none

/-- `seniority` as a Python value. -/
def seniorityV (text : String) : PyVal :=
  match seniority text with
  | some s => .str s
  | none => .none

/-- `tech_stack` as a Python value (a list of strings, per line 261). -/
def tech_stackV (text : String) : PyVal :=
  match tech_stack text with
  | some xs => .list (xs.map PyVal.str)
  | none => .none

/-- `extract_slots_from_turn` (lines 236-264): each field extractor runs
inside `try/except` (the extractors are total functions of a string, so the
handlers are dead code in this embedding), and its value is stored only when
truthy. -/
def extract_slots_from_turn (text : String) : Slots :=
  let out : Slots := []
  let out := if truthy (budgetV text) then dset out "budget" (budgetV text) else out
  let out := if truthy (locationV text) then dset out "location" (locationV text) else out
  let out := if truthy (role_titleV text) then dset out "role_title" (role_titleV text) else out
  let out := if truthy (seniorityV text) then dset out "seniority" (seniorityV text) else out
  let out := if truthy (tech_stackV text) then dset out "stack" (tech_stackV text) else out
  out

-- ---------------------------------------------------------------------------
-- Conflict-aware merge (`slot_extraction.py` lines 266-332)
-- ---------------------------------------------------------------------------

/-- Is a value Python's `None`? (`x is None`). -/
def isNoneV : PyVal → Bool
  | .none => true
  | _ => false

/-- `dict(x)` requires a dict (the spec's §3 types `budget` so); on any other
truthy value the source raises (`TypeError`/`ValueError`). -/
def asDictE : PyVal → Except String (List (String × PyVal))
  | .dict kvs => .ok kvs
  | _ => .error "TypeError"

/-- A string-method call on a value that must be a string
(`AttributeError` otherwise). -/
def pyStrAttrE : PyVal → Except String String
  | .str s => .ok s
  | _ => .error "AttributeError"

/-- The budget branch of `smart_merge_slots` (lines 296-305): take the
incoming budget wholesale when the existing one is falsy, else fill only the
empty sub-fields. -/
def mergeBudget (ex nt : Slots) : Except String Slots :=
  if truthy (pyGet nt "budget") then
    if !truthy (pyGet ex "budget") then .ok (dset ex "budget" (pyGet nt "budget"))
    else
      match asDictE (pyGet ex "budget") with
      | .error e => .error e
      | .ok b0 =>
        match pyGet nt "budget" with
        | .dict nb =>
          let b1 := (["currency", "unit", "period"]).foldl (fun b k =>
            if !truthy (pyGet b k) && truthy (pyGet nb k) then dset b k (pyGet nb k)
            else b) b0
          let b2 := if isNoneV (pyGet b1 "min") && !isNoneV (pyGet nb "min") then
            dset b1 "min" (pyGet nb "min") else b1
          let b3 := if isNoneV (pyGet b2 "max") && !isNoneV (pyGet nb "max") then
            dset b2 "max" (pyGet nb "max") else b2
          .ok (dset ex "budget" (.dict b3))
        | _ => .error "AttributeError"
  else .ok ex

/-- The location branch (lines 307-310): replace only when empty or on an
explicit correction. -/
def mergeLocation (ex nt : Slots) (user_text : String) : Slots :=
  if truthy (pyGet nt "location") then
    if !truthy (pyGet ex "location") || correctionSearch user_text.toList then
      dset ex "location" (pyGet nt "location")
    else ex
  else ex

/-- The seniority branch (lines 312-314): latest wins. -/
def mergeSeniority (ex nt : Slots) : Slots :=
  if truthy (pyGet nt "seniority") then dset ex "seniority" (pyGet nt "seniority")
  else ex

/-- The string values collected by `_union_stack` from one side (lines
267-277): a list keeps its non-blank strings as they are, a non-blank string
is stripped and kept alone. -/
def strExtendList (v : PyVal) : List String :=
  match v with
  | .list xs =>
    xs.foldr (fun x acc =>
      match x with
      | .str s => if !(pyStrip s.toList).isEmpty then s :: acc else acc
      | _ => acc) []
  | .str s => if !(pyStrip s.toList).isEmpty then [strStrip s] else []
  | _ => []

/-- `_union_stack` (lines 267-289): concatenate, re-canonicalize, deduplicate
keeping first occurrences. -/
def _union_stack (old newv : PyVal) : List String :=
  let cur := strExtendList old ++ strExtendList newv
  let canon := cur.map (fun x => ((_canon_tech x.toList).getD x))
  pyDedup canon

/-- The stack branch (lines 316-318). -/
def mergeStack (ex nt : Slots) : Slots :=
  if truthy (pyGet nt "stack") then
    dset ex "stack" (.list ((_union_stack (pyGet ex "stack") (pyGet nt "stack")).map PyVal.str))
  else ex

/-- The role-title branch (lines 320-330): keep the existing title unless it
is blank, a correction marker appears in the raw text, or the (stripped)
incoming title is strictly longer and contains the (stripped) existing one. -/
def mergeRoleTitle (ex nt : Slots) (user_text : String) : Except String Slots :=
  if truthy (pyGet nt "role_title") then
    match pyStrAttrE (pyGet nt "role_title") with
    | .error e => .error e
    | .ok nrt0 =>
      let new_rt := strStrip nrt0
      match pyOrEmptyStr (pyGet ex "role_title") with
      | .error e => .error e
      | .ok crt0 =>
        let cur_rt := strStrip crt0
        if cur_rt.toList.isEmpty then .ok (dset ex "role_title" (.str new_rt))
        else
          let reframe := correctionSearch user_text.toList
          let more_specific := decide (new_rt.length > cur_rt.length) &&
            subIn cur_rt.toList new_rt.toList
          if reframe || more_specific then .ok (dset ex "role_title" (.str new_rt))
          else .ok ex
  else .ok ex

/-- `smart_merge_slots` (lines 291-332), with the branches applied in source
order. -/
def smart_merge_slots (existing nt : Slots) (user_text : String) :
    Except String Slots :=
  match mergeBudget existing nt with
  | .error e => .error e
  | .ok ex1 =>
    let ex2 := mergeLocation ex1 nt user_text
    let ex3 := mergeSeniority ex2 nt
    let ex4 := mergeStack ex3 nt
    mergeRoleTitle ex4 nt user_text

-- ---------------------------------------------------------------------------
-- C1: the duration guard on "Need a tester in Ahmedabad for 6 months"
-- ---------------------------------------------------------------------------

/-- C1 (code_bug evaluation): extracting from the reference duration sentence
DOES produce a budget.  `_BUDGET_SINGLE` has no word boundary after the
magnitude-unit alternation, so the bare unit `m` matches the leading `m` of
"months" (span `" 6 m"`, `unit = "m"`); the period group never participates,
hence the duration guard (which requires a matched period token) cannot fire,
and the value 6 is scaled by ×1,000,000 — contradicting the claim and the
repository's own test `test_duration_not_budget`. -/
theorem duration_sentence_yields_budget :
    dget (extract_slots_from_turn "Need a tester in Ahmedabad for 6 months")
        "budget" =
      some (PyVal.dict
        [("currency", PyVal.str ""), ("min", PyVal.num 6000000),
         ("max", PyVal.num 6000000), ("unit", PyVal.str "m"),
         ("period", PyVal.str ""), ("raw", PyVal.str "6 m")]) := by
  rfl

-- ---------------------------------------------------------------------------
-- C4: correction turn "actually change to golang engineer"
-- ---------------------------------------------------------------------------

/-- C4 (code_bug evaluation): the keyword fallback of `role_title` matches
`\b([a-z][a-z0-9\-\s]{0,30}engineer)\b` against the whole lowered turn, so
the extracted title is the entire sentence; the correction marker then makes
`smart_merge_slots` overwrite with that whole sentence instead of
"golang engineer" — contradicting the claim and the repository's own test
`test_smart_merge_allows_correction`. -/
theorem correction_turn_merges_whole_sentence :
    role_title "actually change to golang engineer" =
      some "actually change to golang engineer" ∧
    smart_merge_slots [("role_title", PyVal.str "python engineer")]
        (extract_slots_from_turn "actually change to golang engineer")
        "actually change to golang engineer" =
      .ok [("role_title", PyVal.str "actually change to golang engineer"),
           ("stack", PyVal.list [PyVal.str "go"])] := by
  exact ⟨rfl, rfl⟩

-- ---------------------------------------------------------------------------
-- C8: totality and per-field structure of `extract_slots_from_turn`
-- ---------------------------------------------------------------------------

/-- C8: `extract_slots_from_turn` is a total function of the text (the
per-field `try/except` of the source never propagates an exception — each
extractor is itself total on strings); every stored value is truthy; each of
the five keys is bound exactly to its own extractor's value when that value
is truthy and is absent otherwise; and no other key ever appears. -/
theorem extract_slots_total_per_field (text : String) :
    (∀ p ∈ extract_slots_from_turn text, truthy p.2 = true) ∧
    dget (extract_slots_from_turn text) "budget" =
      (if truthy (budgetV text) then some (budgetV text) else none) ∧
    dget (extract_slots_from_turn text) "location" =
      (if truthy (locationV text) then some (locationV text) else none) ∧
    dget (extract_slots_from_turn text) "role_title" =
      (if truthy (role_titleV text) then some (role_titleV text) else none) ∧
    dget (extract_slots_from_turn text) "seniority" =
      (if truthy (seniorityV text) then some (seniorityV text) else none) ∧
    dget (extract_slots_from_turn text) "stack" =
      (if truthy (tech_stackV text) then some (tech_stackV text) else none) ∧
    (∀ k, k ∉ ["budget", "location", "role_title", "seniority", "stack"] →
      dget (extract_slots_from_turn text) k = none) := by
  cases hb : truthy (budgetV text) <;> cases hl : truthy (locationV text) <;>
    cases hr : truthy (role_titleV text) <;> cases hs : truthy (seniorityV text) <;>
    cases ht : truthy (tech_stackV text) <;>
    · unfold extract_slots_from_turn
      simp only [hb, hl, hr, hs, ht, if_true, if_false, Bool.false_eq_true,
        ite_false, ite_true]
      refine ⟨?_, ?_, ?_, ?_, ?_, ?_, ?_⟩
      · simp_all [dset, dget]
      · simp [dset, dget]
      · simp [dset, dget]
      · simp [dset, dget]
      · simp [dset, dget]
      · simp [dset, dget]
      · intro k hk
        simp only [List.mem_cons, List.not_mem_nil, or_false, not_or] at hk
        obtain ⟨h1, h2, h3, h4, h5⟩ := hk
        simp [dset, dget, Ne.symm h1, Ne.symm h2, Ne.symm h3, Ne.symm h4,
          Ne.symm h5]

/-- Witness for `extract_slots_total_per_field`: a key outside the five slots
is never bound (empty turn, key `employment_type`). -/
theorem extract_slots_total_per_field_witness :
    dget (extract_slots_from_turn "") "employment_type" = none :=
  (extract_slots_total_per_field "").2.2.2.2.2.2 "employment_type" (by decide)

-- ---------------------------------------------------------------------------
-- Typing side conditions of `smart_merge_slots` (spec §3 data model)
-- ---------------------------------------------------------------------------

/-- Is the value a dict? -/
def isDictB : PyVal → Bool
  | .dict _ => true
  | _ => false

/-- Is the value a string? -/
def isStrB : PyVal → Bool
  | .str _ => true
  | _ => false

/-- The §3 typing of `budget` the merge relies on: when both sides carry a
truthy budget, both are dicts (otherwise lines 300-304 of the source raise). -/
def budgetTypedB (ex nt : Slots) : Bool :=
  !truthy (pyGet nt "budget") || !truthy (pyGet ex "budget") ||
    (isDictB (pyGet ex "budget") && isDictB (pyGet nt "budget"))

/-- The §3 typing of `role_title` the merge relies on: a truthy incoming
title is a string, and the existing one is a string or falsy (otherwise lines
322-323 of the source raise). -/
def roleTypedB (ex nt : Slots) : Bool :=
  !truthy (pyGet nt "role_title") ||
    (isStrB (pyGet nt "role_title") &&
      (isStrB (pyGet ex "role_title") || !truthy (pyGet ex "role_title")))

-- ---------------------------------------------------------------------------
-- Per-branch lemmas of the merge
-- ---------------------------------------------------------------------------

theorem mergeBudget_ok (ex nt : Slots) (h : budgetTypedB ex nt = true) :
    ∃ r, mergeBudget ex nt = .ok r ∧
      (∀ k, k ≠ "budget" → dget r k = dget ex k) ∧
      (∀ k, dhas ex k = true → dhas r k = true) := by
  by_cases h1 : truthy (pyGet nt "budget") = true
  · by_cases h2 : truthy (pyGet ex "budget") = true
    · have hd : isDictB (pyGet ex "budget") = true ∧
          isDictB (pyGet nt "budget") = true := by
        unfold budgetTypedB at h
        rw [h1, h2] at h
        simpa using h
      obtain ⟨hd1, hd2⟩ := hd
      unfold mergeBudget
      rw [if_pos h1, if_neg (by simp [h2])]
      cases hex : pyGet ex "budget" <;> rw [hex] at hd1 <;> simp [isDictB] at hd1
      cases hnt : pyGet nt "budget" <;> rw [hnt] at hd2 <;> simp [isDictB] at hd2
      simp only [asDictE]
      refine ⟨_, rfl, ?_, ?_⟩
      · exact fun k hk => dget_dset_ne ex "budget" k _ hk
      · exact fun k hk => dhas_dset ex "budget" k _ hk
    · unfold mergeBudget
      rw [if_pos h1, if_pos (by simp [Bool.not_eq_true] at h2 ⊢; exact h2)]
      refine ⟨_, rfl, ?_, ?_⟩
      · exact fun k hk => dget_dset_ne ex "budget" k _ hk
      · exact fun k hk => dhas_dset ex "budget" k _ hk
  · unfold mergeBudget
    rw [if_neg h1]
    exact ⟨ex, rfl, fun _ _ => rfl, fun _ hk => hk⟩

theorem mergeLocation_frame (ex nt : Slots) (txt : String) :
    (∀ k, k ≠ "location" → dget (mergeLocation ex nt txt) k = dget ex k) ∧
    (∀ k, dhas ex k = true → dhas (mergeLocation ex nt txt) k = true) := by
  unfold mergeLocation
  split
  · split
    · exact ⟨fun k hk => dget_dset_ne ex "location" k _ hk,
        fun k hk => dhas_dset ex "location" k _ hk⟩
    · exact ⟨fun _ _ => rfl, fun _ hk => hk⟩
  · exact ⟨fun _ _ => rfl, fun _ hk => hk⟩

theorem mergeSeniority_frame (ex nt : Slots) :
    (∀ k, k ≠ "seniority" → dget (mergeSeniority ex nt) k = dget ex k) ∧
    (∀ k, dhas ex k = true → dhas (mergeSeniority ex nt) k = true) := by
  unfold mergeSeniority
  split
  · exact ⟨fun k hk => dget_dset_ne ex "seniority" k _ hk,
      fun k hk => dhas_dset ex "seniority" k _ hk⟩
  · exact ⟨fun _ _ => rfl, fun _ hk => hk⟩

theorem mergeStack_frame (ex nt : Slots) :
    (∀ k, k ≠ "stack" → dget (mergeStack ex nt) k = dget ex k) ∧
    (∀ k, dhas ex k = true → dhas (mergeStack ex nt) k = true) := by
  unfold mergeStack
  split
  · exact ⟨fun k hk => dget_dset_ne ex "stack" k _ hk,
      fun k hk => dhas_dset ex "stack" k _ hk⟩
  · exact ⟨fun _ _ => rfl, fun _ hk => hk⟩

theorem pyOrEmptyStr_ok_of (v : PyVal)
    (h : isStrB v = true ∨ truthy v = false) :
    ∃ s, pyOrEmptyStr v = .ok s := by
  unfold pyOrEmptyStr
  rcases h with h | h
  · cases v <;> simp [isStrB] at h
    split <;> exact ⟨_, rfl⟩
  · rw [if_neg (by simp [h])]
    exact ⟨"", rfl⟩

theorem mergeRoleTitle_ok (ex nt : Slots) (txt : String)
    (h : roleTypedB ex nt = true) :
    ∃ r, mergeRoleTitle ex nt txt = .ok r ∧
      (∀ k, k ≠ "role_title" → dget r k = dget ex k) ∧
      (∀ k, dhas ex k = true → dhas r k = true) := by
  by_cases h1 : truthy (pyGet nt "role_title") = true
  · have hd : isStrB (pyGet nt "role_title") = true ∧
        (isStrB (pyGet ex "role_title") = true ∨
          truthy (pyGet ex "role_title") = false) := by
      unfold roleTypedB at h
      rw [h1] at h
      simpa [Bool.not_eq_true] using h
    obtain ⟨hd1, hd2⟩ := hd
    obtain ⟨s0, hs0⟩ := pyOrEmptyStr_ok_of _ hd2
    unfold mergeRoleTitle
    rw [if_pos h1]
    cases hnt : pyGet nt "role_title" <;> rw [hnt] at hd1 <;> simp [isStrB] at hd1
    simp only [pyStrAttrE]
    simp only [hs0]
    split
    · exact ⟨_, rfl, fun k hk => dget_dset_ne ex "role_title" k _ hk,
        fun k hk => dhas_dset ex "role_title" k _ hk⟩
    · split
      · exact ⟨_, rfl, fun k hk => dget_dset_ne ex "role_title" k _ hk,
          fun k hk => dhas_dset ex "role_title" k _ hk⟩
      · exact ⟨ex, rfl, fun _ _ => rfl, fun _ hk => hk⟩
  · unfold mergeRoleTitle
    rw [if_neg h1]
    exact ⟨ex, rfl, fun _ _ => rfl, fun _ hk => hk⟩

-- ---------------------------------------------------------------------------
-- C10: frame property of `smart_merge_slots`
-- ---------------------------------------------------------------------------

/-- C10: the conflict-aware merge never removes an existing key, leaves every
key outside {budget, location, seniority, stack, role_title} bound to its
existing value, and therefore silently ignores incoming values for such keys
(an incoming `employment_type` or `duration` never enters the result).  The
two hypotheses are the §3 typing of `budget` and `role_title`, without which
the source raises instead of returning. -/
theorem smart_merge_frame (ex nt : Slots) (txt : String)
    (hb : budgetTypedB ex nt = true) (hr : roleTypedB ex nt = true) :
    ∃ m, smart_merge_slots ex nt txt = .ok m ∧
      (∀ k, k ∉ ["budget", "location", "seniority", "stack", "role_title"] →
        dget m k = dget ex k) ∧
      (∀ k, dhas ex k = true → dhas m k = true) := by
  obtain ⟨r1, e1, f1, c1⟩ := mergeBudget_ok ex nt hb
  obtain ⟨f2, c2⟩ := mergeLocation_frame r1 nt txt
  obtain ⟨f3, c3⟩ := mergeSeniority_frame (mergeLocation r1 nt txt) nt
  obtain ⟨f4, c4⟩ := mergeStack_frame (mergeSeniority (mergeLocation r1 nt txt) nt) nt
  have hrt : pyGet (mergeStack (mergeSeniority (mergeLocation r1 nt txt) nt) nt)
      "role_title" = pyGet ex "role_title" := by
    unfold pyGet
    rw [f4 _ (by decide), f3 _ (by decide), f2 _ (by decide), f1 _ (by decide)]
  have hr' : roleTypedB (mergeStack (mergeSeniority (mergeLocation r1 nt txt) nt) nt)
      nt = true := by
    unfold roleTypedB at hr ⊢
    rw [hrt]
    exact hr
  obtain ⟨m, e5, f5, c5⟩ := mergeRoleTitle_ok _ nt txt hr'
  refine ⟨m, ?_, ?_, ?_⟩
  · unfold smart_merge_slots
    rw [e1]
    exact e5
  · intro k hk
    simp only [List.mem_cons, List.not_mem_nil, or_false, not_or] at hk
    obtain ⟨k1, k2, k3, k4, k5⟩ := hk
    rw [f5 _ k5, f4 _ k4, f3 _ k3, f2 _ k2, f1 _ k1]
  · intro k hk
    exact c5 _ (c4 _ (c3 _ (c2 _ (c1 _ hk))))

/-- Witness for `smart_merge_frame` at a concrete pair of slot sets carrying
an extra existing key and an incoming `employment_type`. -/
theorem smart_merge_frame_witness :
    ∃ m, smart_merge_slots
        [("role_title", PyVal.str "python engineer"),
         ("candidates", PyVal.list [PyVal.str "a"])]
        [("employment_type", PyVal.str "contract"),
         ("seniority", PyVal.str "mid")] "hello" = .ok m ∧
      (∀ k, k ∉ ["budget", "location", "seniority", "stack", "role_title"] →
        dget m k = dget [("role_title", PyVal.str "python engineer"),
          ("candidates", PyVal.list [PyVal.str "a"])] k) ∧
      (∀ k, dhas [("role_title", PyVal.str "python engineer"),
          ("candidates", PyVal.list [PyVal.str "a"])] k = true →
        dhas m k = true) :=
  smart_merge_frame _ _ "hello" rfl rfl

-- ---------------------------------------------------------------------------
-- C3: never-downgrade of `role_title` in the conflict-aware merge
-- ---------------------------------------------------------------------------

/-- C3: with a non-blank existing `role_title`, a truthy incoming string
title, no correction marker in the raw text, and an incoming title that is
not both strictly longer than and a superstring of the existing one (both
compared after `strip()`, as the source does), `smart_merge_slots` keeps
`role_title` bound to the existing value.  `budgetTypedB` is the §3 typing of
the budget values, without which the source raises before reaching the
role-title branch. -/
theorem smart_merge_role_never_downgrade (ex nt : Slots) (txt : String)
    (cur nrt : String)
    (hcur : dget ex "role_title" = some (PyVal.str cur))
    (hcurNB : (pyStrip cur.toList).isEmpty = false)
    (hnew : dget nt "role_title" = some (PyVal.str nrt))
    (hnewT : nrt.toList.isEmpty = false)
    (hnoCorr : correctionSearch txt.toList = false)
    (hnoSpec : (decide ((strStrip nrt).length > (strStrip cur).length) &&
      subIn (strStrip cur).toList (strStrip nrt).toList) = false)
    (hb : budgetTypedB ex nt = true) :
    ∃ m, smart_merge_slots ex nt txt = .ok m ∧
      dget m "role_title" = some (PyVal.str cur) := by
  obtain ⟨r1, e1, f1, c1⟩ := mergeBudget_ok ex nt hb
  obtain ⟨f2, c2⟩ := mergeLocation_frame r1 nt txt
  obtain ⟨f3, c3⟩ := mergeSeniority_frame (mergeLocation r1 nt txt) nt
  obtain ⟨f4, c4⟩ := mergeStack_frame (mergeSeniority (mergeLocation r1 nt txt) nt) nt
  set r4 := mergeStack (mergeSeniority (mergeLocation r1 nt txt) nt) nt with hr4def
  have hrt : dget r4 "role_title" = some (PyVal.str cur) := by
    rw [hr4def, f4 _ (by decide), f3 _ (by decide), f2 _ (by decide),
      f1 _ (by decide), hcur]
  have hcurNE : cur.toList.isEmpty = false := by
    cases hc : cur.toList with
    | nil =>
      rw [hc] at hcurNB
      simp [pyStrip, rstrip, lstrip] at hcurNB
    | cons c t => rfl
  have hmr : mergeRoleTitle r4 nt txt = .ok r4 := by
    have hpgetnt : pyGet nt "role_title" = PyVal.str nrt := by
      simp [pyGet, hnew]
    have hnewTD : nrt.data ≠ [] := by
      simpa [List.isEmpty_iff] using hnewT
    have hcurD : cur.data ≠ [] := by
      simpa [List.isEmpty_iff] using hcurNE
    have htr : truthy (pyGet nt "role_title") = true := by
      rw [hpgetnt]
      simp [truthy, hnewTD]
    have hpgetex : pyGet r4 "role_title" = PyVal.str cur := by
      simp [pyGet, hrt]
    have hokex : pyOrEmptyStr (pyGet r4 "role_title") = .ok cur := by
      rw [hpgetex]
      unfold pyOrEmptyStr
      rw [if_pos (by simp [truthy, hcurD])]
    have hstripD : (strStrip cur).data ≠ [] := by
      simpa [List.isEmpty_iff] using (hcurNB : (strStrip cur).toList.isEmpty = false)
    have hnoCorrD : correctionSearch txt.data = false := hnoCorr
    have hnoSpecD : (decide ((strStrip nrt).length > (strStrip cur).length) &&
        subIn (strStrip cur).data (strStrip nrt).data) = false := hnoSpec
    unfold mergeRoleTitle
    rw [if_pos htr, hpgetnt]
    simp only [pyStrAttrE]
    simp only [hokex]
    rw [if_neg (by simp [hstripD]), if_neg (by simp [hnoCorrD, hnoSpecD])]
  refine ⟨r4, ?_, hrt⟩
  unfold smart_merge_slots
  rw [e1]
  exact hmr

/-- Witness for `smart_merge_role_never_downgrade`: the spec's reference
scenario, prev `{"role_title": "python engineer"}` merged with the vaguer
incoming title "mid level engineer" and that turn text. -/
theorem smart_merge_role_never_downgrade_witness :
    ∃ m, smart_merge_slots [("role_title", PyVal.str "python engineer")]
        [("role_title", PyVal.str "mid level engineer"),
         ("seniority", PyVal.str "mid")] "mid level engineer" = .ok m ∧
      dget m "role_title" = some (PyVal.str "python engineer") :=
  smart_merge_role_never_downgrade _ _ _ "python engineer" "mid level engineer"
    rfl rfl rfl rfl rfl rfl rfl

-- ---------------------------------------------------------------------------
-- C9: the location value vocabulary
-- ---------------------------------------------------------------------------

/-- Does the string start with an upper-case letter (necessary for any
title-cased phrase)? -/
def titleCasedStart (s : String) : Bool :=
  match s.toList with
  | c :: _ => c.isUpper
  | [] => false

/-- C9 counterexample: `location "wfh"` returns the lower-case hint token
`"wfh"` verbatim, which is neither a member of
{Remote, Hybrid, Onsite, Work-from-home} nor title-cased. -/
theorem location_wfh_lowercase :
    location "wfh" = some "wfh" ∧
    "wfh" ∉ ["Remote", "Hybrid", "Onsite", "Work-from-home"] ∧
    titleCasedStart "wfh" = false := by
  refine ⟨rfl, by decide, rfl⟩

theorem tryWidths_shape (c0 : Char) (rest2 run : List Char) :
    ∀ k g, tryWidths c0 rest2 run k = some g → ∃ pre, g = c0 :: pre := by
  intro k
  induction k with
  | zero =>
    intro g h
    simp [tryWidths] at h
  | succ k ih =>
    intro g h
    unfold tryWidths at h
    split at h
    · exact absurd h (by simp)
    · split at h
      · exact ⟨run.take (k + 1), (Option.some.inj h).symm⟩
      · exact ih g h

theorem inAtGroup_shape (afterSp : List Char) (g : List Char)
    (h : inAtGroup afterSp = some g) :
    ∃ c0 pre, g = c0 :: pre ∧ c0.isAlpha = true := by
  cases afterSp with
  | nil => simp [inAtGroup] at h
  | cons c0 rest2 =>
    simp only [inAtGroup] at h
    split at h
    · obtain ⟨pre, hpre⟩ := tryWidths_shape _ _ _ _ _ h
      exact ⟨c0, pre, hpre, by assumption⟩
    · simp at h

theorem tryInAt_shape (prev : Option Char) (s : List Char) (g : List Char)
    (h : tryInAt prev s = some g) :
    ∃ c0 pre, g = c0 :: pre ∧ c0.isAlpha = true := by
  cases s with
  | nil => simp [tryInAt] at h
  | cons c1 rest1 =>
    cases rest1 with
    | nil => simp [tryInAt] at h
    | cons c2 rest =>
      simp only [tryInAt] at h
      split at h
      · split at h
        all_goals first
          | exact inAtGroup_shape _ _ h
          | exact inAtGroup_shape _ _ h.2
          | simp at h
      · simp at h

theorem locScan_shape : ∀ (s : List Char) (prev : Option Char) (g : List Char),
    locScan prev s = some g → ∃ c0 pre, g = c0 :: pre ∧ c0.isAlpha = true := by
  intro s
  induction s with
  | nil =>
    intro prev g h
    simp [locScan] at h
  | cons c t ih =>
    intro prev g h
    cases hT : tryInAt prev (c :: t) with
    | some g' =>
      simp only [locScan, hT] at h
      obtain ⟨c0, pre, hpre, halpha⟩ := tryInAt_shape prev (c :: t) g' hT
      obtain rfl : g' = g := Option.some.inj h
      exact ⟨c0, pre, hpre, halpha⟩
    | none =>
      simp only [locScan, hT] at h
      exact ih (some c) g h

theorem rstrip_cons_of_nonspace (c : Char) (l : List Char)
    (h : pySpace c = false) : ∃ r, rstrip (c :: l) = c :: r := by
  cases hr : rstrip l with
  | nil => exact ⟨[], by simp [rstrip, hr, h]⟩
  | cons x xs => exact ⟨x :: xs, by simp [rstrip, hr]⟩

theorem norm_spaces_head (c : Char) (t : List Char) (h : pySpace c = false) :
    ∃ r, norm_spaces (c :: t) = c :: r := by
  unfold norm_spaces squeeze
  rw [show squeezeAux false (c :: t) = c :: squeezeAux false t by
    simp [squeezeAux, h]]
  obtain ⟨r, hr⟩ := rstrip_cons_of_nonspace c (squeezeAux false t) h
  rw [hr]
  exact ⟨r, by simp [lstrip, List.dropWhile_cons, h]⟩

theorem pySpace_false_of_alpha (c : Char) (h : c.isAlpha = true) :
    pySpace c = false := by
  by_contra hc
  rw [Bool.not_eq_false] at hc
  simp only [pySpace, Bool.or_eq_true, decide_eq_true_eq] at hc
  rcases hc with (((((h1 | h1) | h1) | h1) | h1) | h1) <;> subst h1 <;>
    exact absurd h (by decide)

/-- C9 amended: when `location` returns a non-empty value, it is either
`"Remote"`, one of the lower-case hint tokens returned verbatim
{hybrid, onsite, on-site, work from home, wfh}, or the whitespace-normalized
phrase captured by the case-insensitive `in/at` fallback, which starts with a
letter of either case (the `(?i)` flag makes `[A-Z]` case-blind, and nothing
title-cases the capture). -/
theorem location_value_vocabulary (text : String) (v : String)
    (h : location text = some v) :
    v ∈ ["Remote", "hybrid", "onsite", "on-site", "work from home", "wfh"] ∨
    (∃ c0 rest, v.toList = c0 :: rest ∧ c0.isAlpha = true ∧
      (locScan Option.none text.toList).map
        (fun g => (norm_spaces g).asString) = some v) := by
  unfold location at h
  split at h
  · simp at h
  · cases hf : _LOC_HINTS.find?
        (fun kw => subIn kw.toList (pyLower text.toList)) with
    | some kw =>
      rw [hf] at h
      have hmem := List.mem_of_find?_eq_some hf
      left
      obtain rfl : (if kw = "remote" then "Remote" else kw) = v := Option.some.inj h
      fin_cases hmem <;> simp
    | none =>
      rw [hf] at h
      right
      obtain ⟨g, hg, hv⟩ := Option.map_eq_some'.mp h
      obtain ⟨c0, pre, rfl, halpha⟩ := locScan_shape text.toList Option.none g hg
      obtain ⟨r, hr⟩ := norm_spaces_head c0 pre (pySpace_false_of_alpha c0 halpha)
      refine ⟨c0, r, ?_, halpha, ?_⟩
      · rw [← hv, hr]
        rfl
      · rw [hg]
        simp [hr, ← hv]

/-- Witness for `location_value_vocabulary` at the concrete turn "in Pune". -/
theorem location_value_vocabulary_witness :
    "Pune" ∈ ["Remote", "hybrid", "onsite", "on-site", "work from home", "wfh"] ∨
    (∃ c0 rest, ("Pune" : String).toList = c0 :: rest ∧ c0.isAlpha = true ∧
      (locScan Option.none ("in Pune" : String).toList).map
        (fun g => (norm_spaces g).asString) = some "Pune") :=
  location_value_vocabulary "in Pune" "Pune" rfl
